import Mathlib

/-!
# Verification of ent_antispam.py

A shallow embedding of the Ent-AntiSpam plugin
(`src/addons/source-python/plugins/ent_antispam/ent_antispam.py`) and proofs
about its pile detector, rule engine, frame watchdog, configuration reload
and session statistics.

Python strings that are pattern-matched character-wise (classnames and rule
patterns) are modelled as `List Char`; action strings, which are only compared
for equality, stay `String`.  Positions are integer 3-vectors and squared
distances are exact integers.  Machine floats of the configuration are
modelled as exact rationals, with Python's `int()` truncation made explicit.
-/

set_option autoImplicit false

/-! ## Data model -/

/-- The physics representation of an entity, as queried by `is_static_entity`:
`physics_obj.is_static()`, `.collision_enabled`, `.asleep`, `.motion_enabled`. -/
structure PhysicsObject where
  is_static : Bool
  collision_enabled : Bool
  asleep : Bool
  motion_enabled : Bool
deriving DecidableEq, Repr

/-- A 3-D position (`entity.origin`). -/
structure Vec3 where
  x : Int
  y : Int
  z : Int
deriving DecidableEq, Repr

/-- Squared distance `origin.get_distance_sqr(other)`: squared Euclidean distance. -/
def Vec3.get_distance_sqr (a b : Vec3) : Int :=
  (a.x - b.x) ^ 2 + (a.y - b.y) ^ 2 + (a.z - b.z) ^ 2

/-- A snapshot of one networked entity: `entity.index`, `entity.classname`,
`entity.origin` and its (possibly absent) `entity.physics_object`. -/
structure Entity where
  index : Nat
  classname : List Char
  origin : Vec3
  physics_object : Option PhysicsObject
deriving DecidableEq, Repr

/-- One entry of the `entity_actions` JSON list: `rule['classname']` (a
pattern, possibly ending in the wildcard `*`) and `rule['action']`. -/
structure Rule where
  classname : List Char
  action : String
deriving DecidableEq, Repr

/-! ## Rule Engine (`handle_entity`, lines 54-74) -/

/-- The reified outcome of `handle_entity`: `removed` and `frozen` are the two
`return True` branches (after the `entity.remove()` resp.
`entity.physics_object.motion_enabled = False` side effect), `notHandled` is
`return False` (either the `break` on an unrecognized action or falling off
the rule list). -/
inductive HandleResult where
  | removed
  | frozen
  | notHandled
deriving DecidableEq, Repr

/-- The boolean value `handle_entity` actually returns. -/
def HandleResult.toBool : HandleResult → Bool
  | .removed => true
  | .frozen => true
  | .notHandled => false

/-- The two `continue` guards of the loop in `handle_entity`, combined: a rule
matches when its pattern ends in `*` and the classname starts with the
pattern without its final character (`rule['classname'][:-1]`), or when the
pattern does not end in `*` and equals the classname exactly. -/
def rule_matches (rule : Rule) (classname : List Char) : Bool :=
  if rule.classname.getLast? == some '*' then
    List.isPrefixOf rule.classname.dropLast classname
  else
    classname == rule.classname

/-- The body executed once a rule has matched: `remove` and `freeze` return
`True`, any other action hits the `break` and the final `return False`. -/
def rule_action_result (rule : Rule) : HandleResult :=
  if rule.action == "remove" then HandleResult.removed
  else if rule.action == "freeze" then HandleResult.frozen
  else HandleResult.notHandled

/-- The `for rule in entity_actions` loop of `handle_entity`. -/
def handle_entity_loop (entity_actions : List Rule) (classname : List Char) :
    HandleResult :=
  match entity_actions with
  | [] => HandleResult.notHandled
  | rule :: rest =>
    if rule_matches rule classname then rule_action_result rule
    else handle_entity_loop rest classname

/-- The function `handle_entity(entity)`: evaluate the ordered rule list against
`entity.classname`. -/
def handle_entity (entity_actions : List Rule) (entity : Entity) : HandleResult :=
  handle_entity_loop entity_actions entity.classname

/-! ## `is_static_entity` (lines 77-84) -/

/-- The predicate `is_static_entity(entity)`: `physics_obj is None or physics_obj.is_static()
or not physics_obj.collision_enabled or physics_obj.asleep or not
physics_obj.motion_enabled`. -/
def is_static_entity (entity : Entity) : Bool :=
  match entity.physics_object with
  | none => true
  | some physics_obj =>
      physics_obj.is_static || !physics_obj.collision_enabled ||
      physics_obj.asleep || !physics_obj.motion_enabled

/-! ## Pile Detector (`perform_check` Step 2, lines 96-111) -/

/-- The inner loop of Step 2: collect, over the whole snapshot `ent_pos`,
every entity within `pile_radius_sqr` of `pile_origin` that is not static
(the two `continue` guards, in source order). -/
def pile_of (ent_pos : List Entity) (pile_origin : Vec3)
    (pile_radius_sqr : Int) : List Entity :=
  match ent_pos with
  | [] => []
  | entity :: rest =>
    if pile_origin.get_distance_sqr entity.origin > pile_radius_sqr then
      pile_of rest pile_origin pile_radius_sqr
    else if is_static_entity entity then
      pile_of rest pile_origin pile_radius_sqr
    else
      entity :: pile_of rest pile_origin pile_radius_sqr

/-- The outer loop of Step 2: every entity of the snapshot anchors a pile
(whether or not it is static itself); the pile is kept exactly when its
length exceeds `max_entities_per_pile`. -/
def piles_to_clear (ent_pos anchors : List Entity) (pile_radius_sqr : Int)
    (max_entities_per_pile : Nat) : List (List Entity) :=
  match anchors with
  | [] => []
  | pile_entity :: rest =>
    let pile := pile_of ent_pos pile_entity.origin pile_radius_sqr
    if pile.length > max_entities_per_pile then
      pile :: piles_to_clear ent_pos rest pile_radius_sqr max_entities_per_pile
    else
      piles_to_clear ent_pos rest pile_radius_sqr max_entities_per_pile

/-- Step 2 in full: anchors range over the same snapshot the inner loop
scans. -/
def detect_piles (ent_pos : List Entity) (pile_radius_sqr : Int)
    (max_entities_per_pile : Nat) : List (List Entity) :=
  piles_to_clear ent_pos ent_pos pile_radius_sqr max_entities_per_pile

/-! ## Mitigation Pass (`perform_check` Steps 3-4, lines 113-129) and
session statistics -/

/-- The session counters (`total_checks_issued`,
`total_handled_entities_count`). -/
structure Stats where
  total_checks_issued : Nat
  total_handled_entities_count : Nat
deriving DecidableEq, Repr

/-- The inner loop of Step 3 over one pile's members, carrying
`handled_indexes` and `handled_entities_count` exactly as the source does.
The extra `invoked` component is a ghost trace recording, in order, the
entities actually passed to `handle_entity` (those not skipped by the
`index in handled_indexes` guard). -/
def clear_pile (entity_actions : List Rule) (pile : List Entity)
    (handled_indexes : List Nat) (handled_entities_count : Nat)
    (invoked : List Entity) : List Nat × Nat × List Entity :=
  match pile with
  | [] => (handled_indexes, handled_entities_count, invoked)
  | entity :: rest =>
    if entity.index ∈ handled_indexes then
      clear_pile entity_actions rest handled_indexes handled_entities_count
        invoked
    else
      clear_pile entity_actions rest (handled_indexes ++ [entity.index])
        (if (handle_entity entity_actions entity).toBool then
          handled_entities_count + 1
         else handled_entities_count)
        (invoked ++ [entity])

/-- The outer loop of Step 3 over all piles. -/
def clear_piles (entity_actions : List Rule) (piles : List (List Entity))
    (handled_indexes : List Nat) (handled_entities_count : Nat)
    (invoked : List Entity) : List Nat × Nat × List Entity :=
  match piles with
  | [] => (handled_indexes, handled_entities_count, invoked)
  | pile :: rest =>
    let s := clear_pile entity_actions pile handled_indexes
      handled_entities_count invoked
    clear_piles entity_actions rest s.1 s.2.1 s.2.2

/-- The function `perform_check()`: Step 1 is the snapshot `entities` (taken by the host's
entity iterator), Step 2 detects the piles with `pile_radius ** 2`, Step 3
clears them starting from an empty `handled_indexes` list and a zero local
count, Step 4 pushes the local count into the session statistics.  Returns
the new statistics together with the ghost trace of entities that were
passed to `handle_entity`. -/
def perform_check (entity_actions : List Rule) (entities : List Entity)
    (max_entities_per_pile : Nat) (pile_radius : Int) (stats : Stats) :
    Stats × List Entity :=
  let pile_radius_sqr := pile_radius ^ 2
  let piles := detect_piles entities pile_radius_sqr max_entities_per_pile
  let s := clear_piles entity_actions piles [] 0 []
  ({ total_checks_issued := stats.total_checks_issued + 1,
     total_handled_entities_count :=
       stats.total_handled_entities_count + s.2.1 }, s.2.2)

/-! ## Configuration store and `reload_configs` (lines 30-39) -/

/-- How the `min_frames_per_interval` key dispatches in
`get_min_frames_per_interval`: the string `"auto"` (case-insensitively) or a
string parsed by `int(value)`. -/
inductive MinFramesSetting where
  | auto
  | manual (value : Int)
deriving DecidableEq, Repr

/-- The tunable parameters read from `config.ini`.  Durations and distances
are exact rationals standing for the Python floats. -/
structure ConfigData where
  interval : ℚ
  min_frames_per_interval : MinFramesSetting
  pile_radius : Int
  max_entities_per_pile : Nat
  level_init_delay : ℚ
deriving DecidableEq, Repr

/-- The state of the global `config` object after `config = ConfigParser()`
and `config.read(...)`: `empty` when the parser holds no data (freshly
constructed, or its file was missing or raised mid-read), `loaded` after a
successful read. -/
inductive ConfigObj where
  | empty
  | loaded (data : ConfigData)
deriving DecidableEq, Repr

/-- Outcome of `config.read(path)` on the ini source: a well-formed file
populates the parser; a missing file is silently ignored by `ConfigParser`
(the parser stays empty); a malformed file raises mid-read. -/
inductive IniReadResult where
  | wellFormed (data : ConfigData)
  | missing
  | malformed
deriving DecidableEq, Repr

/-- Outcome of `open(...)` plus `json.load(f)` on the rule-list source: a
well-formed file yields the rule list; a missing or malformed file raises. -/
inductive JsonReadResult where
  | wellFormed (rules : List Rule)
  | unreadable
deriving DecidableEq, Repr

/-- The module globals mutated by `reload_configs`; both start as `None`. -/
structure Globals where
  config : Option ConfigObj
  entity_actions : Option (List Rule)
deriving DecidableEq, Repr

/-- The function `reload_configs()`: first rebinds the global `config` to a fresh
`ConfigParser()` and reads the ini source into it, then loads the JSON rule
list into the global `entity_actions`.  An exception raised by either read
propagates, but assignments already executed stay in effect; the returned
`Bool` is `true` exactly when the call completes without raising. -/
def reload_configs (ini : IniReadResult) (js : JsonReadResult) (g : Globals) :
    Globals × Bool :=
  let g1 : Globals := { g with config := some ConfigObj.empty }
  match ini with
  | .malformed => (g1, false)
  | .missing =>
    match js with
    | .unreadable => (g1, false)
    | .wellFormed rules => ({ g1 with entity_actions := some rules }, true)
  | .wellFormed data =>
    let g2 : Globals := { g1 with config := some (ConfigObj.loaded data) }
    match js with
    | .unreadable => (g2, false)
    | .wellFormed rules => ({ g2 with entity_actions := some rules }, true)

/-! ## `get_min_frames_per_interval` (lines 42-51, 135) -/

/-- The constant `MIN_TICKS_PER_INTERVAL_AUTO_MULTIPLIER = 0.95`. -/
def MIN_TICKS_PER_INTERVAL_AUTO_MULTIPLIER : ℚ := 95 / 100

/-- Python's `int()` applied to a real value: truncation toward zero. -/
def pyInt (q : ℚ) : Int := if 0 ≤ q then ⌊q⌋ else ⌈q⌉

/-- The function `get_min_frames_per_interval()`: on the `"auto"` sentinel, truncate
`interval / global_vars.interval_per_tick *
MIN_TICKS_PER_INTERVAL_AUTO_MULTIPLIER`; otherwise the integer value of the
key. -/
def get_min_frames_per_interval (cfg : ConfigData) (interval_per_tick : ℚ) :
    Int :=
  match cfg.min_frames_per_interval with
  | .auto =>
    pyInt (cfg.interval / interval_per_tick *
      MIN_TICKS_PER_INTERVAL_AUTO_MULTIPLIER)
  | .manual value => value

/-! ## `FrameWatcher` (lines 148-192) -/

/-- The state of a `FrameWatcher` instance: the `Repeat` timer is modelled by
whether it is running, the remaining fields are `_last_watch_frame`,
`_last_delta_frame` and `_min_frames_per_interval`. -/
structure FrameWatcher where
  repeat_running : Bool
  last_watch_frame : Option Int
  last_delta_frame : Option Int
  min_frames_per_interval : Int
deriving DecidableEq, Repr

/-- The method `FrameWatcher._watch(self)`: reads `global_vars.frame_count` (passed here
as `current_frame`); when a previous sample exists, stores the delta and runs
`perform_check()` when it is at most the threshold.  Returns the new state
and the number of `perform_check()` invocations the call made. -/
def FrameWatcher.watch (w : FrameWatcher) (current_frame : Int) :
    FrameWatcher × Nat :=
  match w.last_watch_frame with
  | none => ({ w with last_watch_frame := some current_frame }, 0)
  | some last =>
    let delta := current_frame - last
    if delta ≤ w.min_frames_per_interval then
      ({ w with last_delta_frame := some delta,
                last_watch_frame := some current_frame }, 1)
    else
      ({ w with last_delta_frame := some delta,
                last_watch_frame := some current_frame }, 0)

/-- The method `FrameWatcher.start(self)`: starts the `Repeat` timer with the configured
interval; touches no sampled state. -/
def FrameWatcher.start (w : FrameWatcher) : FrameWatcher :=
  { w with repeat_running := true }

/-- The method `FrameWatcher.stop(self)`: `self._repeat.stop()` (a no-op when the timer
is not running, hence total here) followed by `self._last_watch_frame =
None`. -/
def FrameWatcher.stop (w : FrameWatcher) : FrameWatcher :=
  { w with repeat_running := false, last_watch_frame := none }

/-! ## Spec-side matching (for the refinement claim about the Rule Engine) -/

/-- Modelled from the spec: a rule matches when its pattern is an exact equal
to the classname, or — when the pattern ends in the wildcard marker — the
classname starts with the pattern's literal stem (the pattern without the
marker). -/
def spec_rule_matches (rule : Rule) (classname : List Char) : Bool :=
  classname == rule.classname ||
    (rule.classname.getLast? == some '*' &&
      List.isPrefixOf rule.classname.dropLast classname)

/-- Modelled from the spec: the first rule, in list order, that matches the
classname. -/
def spec_first_match (entity_actions : List Rule) (classname : List Char) :
    Option Rule :=
  entity_actions.find? (fun rule => spec_rule_matches rule classname)

/-! ## Concrete fixtures used by witnesses and counterexamples -/

/-- A physics object of a fully live (non-static) entity. -/
def live_physics : PhysicsObject :=
  { is_static := false, collision_enabled := true, asleep := false,
    motion_enabled := true }

/-- A non-static crate at the origin. -/
def crate_a : Entity :=
  { index := 1, classname := "prop_physics".data, origin := ⟨0, 0, 0⟩,
    physics_object := some live_physics }

/-- A non-static crate one unit away from `crate_a`. -/
def crate_b : Entity :=
  { index := 2, classname := "prop_physics".data, origin := ⟨1, 0, 0⟩,
    physics_object := some live_physics }

/-- A wildcard rule removing every `prop...` entity. -/
def remove_props_rule : Rule := { classname := "prop*".data, action := "remove" }

/-- A sample parameter configuration (interval 2 s, auto threshold). -/
def sample_config : ConfigData :=
  { interval := 2, min_frames_per_interval := MinFramesSetting.auto,
    pile_radius := 250, max_entities_per_pile := 10, level_init_delay := 10 }

/-- The same parameters with a different interval, standing for a freshly
edited config file. -/
def sample_config_reloaded : ConfigData :=
  { sample_config with interval := 5 }

/-- Globals holding a previously loaded configuration and rule list. -/
def sample_globals : Globals :=
  { config := some (ConfigObj.loaded sample_config),
    entity_actions := some [remove_props_rule] }

/-- A watcher mid-session: baseline sampled, a delta already measured. -/
def sample_watcher : FrameWatcher :=
  { repeat_running := true, last_watch_frame := some 1000,
    last_delta_frame := some 90, min_frames_per_interval := 126 }

/-- A watcher that has sampled a baseline frame but no delta yet. -/
def baseline_watcher : FrameWatcher :=
  { repeat_running := true, last_watch_frame := some 100,
    last_delta_frame := none, min_frames_per_interval := 126 }

/-! ## Theorems: Rule Engine -/

/-- The loop guards of `handle_entity` decide exactly the spec's matching
relation: for a wildcard pattern equal to the whole classname, the stem is a
prefix of the classname anyway, so the extra exact-equality disjunct of the
spec changes nothing. -/
theorem rule_matches_eq_spec (rule : Rule) (classname : List Char) :
    rule_matches rule classname = spec_rule_matches rule classname := by
  unfold rule_matches spec_rule_matches
  cases hstar : rule.classname.getLast? == some '*'
  · simp [hstar]
  · simp only [hstar, Bool.true_and, if_true]
    cases hc : classname == rule.classname
    · simp [hc]
    · have hceq : classname = rule.classname := eq_of_beq hc
      subst hceq
      simp [ List.isPrefixOf_iff_prefix, List.dropLast_prefix]

/-- C9: `is_static_entity` returns `true` iff the entity has no physics
object, or it is flagged static, or collision is disabled, or it is asleep,
or motion is disabled; otherwise it returns `false`. -/
theorem is_static_entity_spec (entity : Entity) :
    is_static_entity entity = true ↔
      entity.physics_object = none ∨
        ∃ physics_obj, entity.physics_object = some physics_obj ∧
          (physics_obj.is_static = true ∨
            physics_obj.collision_enabled = false ∨
            physics_obj.asleep = true ∨
            physics_obj.motion_enabled = false) := by
  obtain ⟨i, c, o, po⟩ := entity
  cases po with
  | none => simp [is_static_entity]
  | some p =>
    simp only [is_static_entity, Bool.or_eq_true, Bool.not_eq_true',
      Option.some.injEq, reduceCtorEq, exists_eq_left', false_or]
    tauto

/-- C8: the Rule Engine scans rules in list order and stops at the first
match under the spec's matching relation; concretely, rules
`[(A*, remove), (AB, freeze)]` on classname `ABC` yield `removed` — list
order wins over pattern specificity. -/
theorem handle_entity_first_match (entity_actions : List Rule)
    (classname : List Char) :
    (handle_entity_loop entity_actions classname =
      match spec_first_match entity_actions classname with
      | none => HandleResult.notHandled
      | some rule => rule_action_result rule) ∧
    handle_entity [⟨"A*".data, "remove"⟩, ⟨"AB".data, "freeze"⟩]
        { index := 1, classname := "ABC".data, origin := ⟨0, 0, 0⟩,
          physics_object := some live_physics } = HandleResult.removed := by
  refine ⟨?_, by decide⟩
  induction entity_actions with
  | nil => rfl
  | cons rule rest ih =>
    have hrm := rule_matches_eq_spec rule classname
    cases hm : spec_rule_matches rule classname
    · have hf : rule_matches rule classname = false := by rw [hrm, hm]
      rw [show spec_first_match (rule :: rest) classname =
          spec_first_match rest classname from
        List.find?_cons_of_neg rest (by simp [hm])]
      unfold handle_entity_loop
      rw [hf]
      simpa using ih
    · have ht : rule_matches rule classname = true := by rw [hrm, hm]
      rw [show spec_first_match (rule :: rest) classname = some rule from
        List.find?_cons_of_pos rest (by simp [hm])]
      unfold handle_entity_loop
      rw [ht]
      simp

/-- C3: when the first matching rule's action is neither `remove` nor
`freeze`, `handle_entity` hits the `break` and returns not-handled, never
consulting the remaining rules, whatever they contain. -/
theorem handle_entity_fallthrough_stop (pre post : List Rule) (rule : Rule)
    (classname : List Char)
    (hpre : ∀ r ∈ pre, rule_matches r classname = false)
    (hmatch : rule_matches rule classname = true)
    (hremove : rule.action ≠ "remove") (hfreeze : rule.action ≠ "freeze") :
    handle_entity_loop (pre ++ rule :: post) classname =
      HandleResult.notHandled := by
  induction pre with
  | nil =>
    rw [List.nil_append]
    unfold handle_entity_loop
    rw [hmatch, if_pos rfl]
    unfold rule_action_result
    rw [if_neg (by simpa using hremove), if_neg (by simpa using hfreeze)]
  | cons r rs ih =>
    rw [List.cons_append]
    unfold handle_entity_loop
    rw [hpre r (List.mem_cons_self r rs)]
    simpa using ih fun x hx => hpre x (List.mem_cons_of_mem r hx)

/-- Witness for C3: rule list `[(X, other), (X, remove)]` on classname `X`
stops not-handled at the first rule even though the second would remove. -/
theorem handle_entity_fallthrough_stop_witness :
    (∀ r ∈ ([] : List Rule), rule_matches r "X".data = false) ∧
    rule_matches ⟨"X".data, "other"⟩ "X".data = true ∧
    (⟨"X".data, "other"⟩ : Rule).action ≠ "remove" ∧
    (⟨"X".data, "other"⟩ : Rule).action ≠ "freeze" ∧
    handle_entity_loop
        ([] ++ (⟨"X".data, "other"⟩ : Rule) :: [⟨"X".data, "remove"⟩])
        "X".data = HandleResult.notHandled :=
  ⟨fun r hr => absurd hr (List.not_mem_nil r), by decide, by decide,
    by decide,
    handle_entity_fallthrough_stop [] [⟨"X".data, "remove"⟩]
      ⟨"X".data, "other"⟩ "X".data
      (fun r hr => absurd hr (List.not_mem_nil r)) (by decide) (by decide)
      (by decide)⟩

/-! ## Theorems: threshold resolution, watchdog, reload -/

/-- C7: with the `"auto"` sentinel, nonnegative interval and positive tick
duration, the resolved threshold is `floor(interval / tick_duration * 0.95)`;
at interval 2 s and tick duration 0.015 s it is 126. -/
theorem get_min_frames_per_interval_auto (cfg : ConfigData)
    (interval_per_tick : ℚ)
    (hauto : cfg.min_frames_per_interval = MinFramesSetting.auto)
    (hi : 0 ≤ cfg.interval) (ht : 0 < interval_per_tick) :
    get_min_frames_per_interval cfg interval_per_tick =
      ⌊cfg.interval / interval_per_tick * (95 / 100 : ℚ)⌋ ∧
    (cfg.interval = 2 → interval_per_tick = 15 / 1000 →
      get_min_frames_per_interval cfg interval_per_tick = 126) := by
  have hmain : get_min_frames_per_interval cfg interval_per_tick =
      ⌊cfg.interval / interval_per_tick * (95 / 100 : ℚ)⌋ := by
    unfold get_min_frames_per_interval
    rw [hauto]
    unfold pyInt MIN_TICKS_PER_INTERVAL_AUTO_MULTIPLIER
    rw [if_pos (mul_nonneg (div_nonneg hi ht.le) (by norm_num))]
  refine ⟨hmain, fun h2 h15 => ?_⟩
  rw [hmain, h2, h15]
  rw [show ((2 : ℚ) / (15 / 1000) * (95 / 100)) = 380 / 3 by norm_num]
  norm_num [Int.floor_eq_iff]

/-- Witness for C7 at the sample configuration: interval 2 s, tick duration
0.015 s, resolved threshold 126. -/
theorem get_min_frames_per_interval_auto_witness :
    sample_config.min_frames_per_interval = MinFramesSetting.auto ∧
    (0 : ℚ) ≤ sample_config.interval ∧ (0 : ℚ) < 15 / 1000 ∧
    get_min_frames_per_interval sample_config (15 / 1000) = 126 :=
  ⟨rfl, by norm_num [sample_config], by norm_num,
    (get_min_frames_per_interval_auto sample_config (15 / 1000) rfl
      (by norm_num [sample_config]) (by norm_num)).2 rfl rfl⟩

/-- C4: on a tick, when no previous sample exists no mitigation runs and the
measured delta is untouched; when one exists, exactly one mitigation pass
runs iff the delta is at most the threshold; in every case the current frame
is stored as the new previous sample. -/
theorem frame_watcher_watch_spec (w : FrameWatcher) (current_frame : Int) :
    (w.last_watch_frame = none →
      (w.watch current_frame).2 = 0 ∧
      (w.watch current_frame).1.last_delta_frame = w.last_delta_frame) ∧
    (∀ last, w.last_watch_frame = some last →
      (w.watch current_frame).2 =
        if current_frame - last ≤ w.min_frames_per_interval then 1 else 0) ∧
    (w.watch current_frame).1.last_watch_frame = some current_frame := by
  refine ⟨fun h => ?_, fun last h => ?_, ?_⟩
  · simp [FrameWatcher.watch, h]
  · simp only [FrameWatcher.watch, h]
    by_cases hd : current_frame - last ≤ w.min_frames_per_interval <;>
      simp [hd]
  · cases hlw : w.last_watch_frame with
    | none => simp [FrameWatcher.watch, hlw]
    | some l =>
      simp only [FrameWatcher.watch, hlw]
      by_cases hd : current_frame - l ≤ w.min_frames_per_interval <;>
        simp [hd]

/-- Witness for C4: a watcher with baseline frame 100 and threshold 126,
ticking at frame 200, runs exactly one mitigation pass and stores 200. -/
theorem frame_watcher_watch_spec_witness :
    baseline_watcher.last_watch_frame = some 100 ∧
    (baseline_watcher.watch 200).2 = 1 ∧
    (baseline_watcher.watch 200).1.last_watch_frame = some 200 := by
  have h := frame_watcher_watch_spec baseline_watcher 200
  refine ⟨rfl, ?_, h.2.2⟩
  rw [h.2.1 100 rfl]
  decide

/-- C6 counterexample: stopping a watcher that has already measured a delta
leaves `_last_delta_frame` set, so not all sampled state is reset to none. -/
theorem frame_watcher_stop_counterexample :
    ¬ (sample_watcher.stop.last_watch_frame = none ∧
       sample_watcher.stop.last_delta_frame = none) := by decide

/-- C6 amended: `stop()` halts the timer and resets `_last_watch_frame` to
none — so the first tick after a restart only re-establishes a baseline —
and is safe to call when not running; `_last_delta_frame`, however, keeps its
previous value and is not cleared. -/
theorem frame_watcher_stop_spec (w : FrameWatcher) :
    w.stop.repeat_running = false ∧
    w.stop.last_watch_frame = none ∧
    w.stop.last_delta_frame = w.last_delta_frame ∧
    w.stop.min_frames_per_interval = w.min_frames_per_interval :=
  ⟨rfl, rfl, rfl, rfl⟩

/-- C2 counterexample: a reload whose parameter source is well-formed but
whose rule list is unreadable replaces `config` yet leaves `entity_actions`
untouched — one source replaced, the other unchanged. -/
theorem reload_configs_counterexample :
    (reload_configs (IniReadResult.wellFormed sample_config_reloaded)
        JsonReadResult.unreadable sample_globals).1.config ≠
      sample_globals.config ∧
    (reload_configs (IniReadResult.wellFormed sample_config_reloaded)
        JsonReadResult.unreadable sample_globals).1.entity_actions =
      sample_globals.entity_actions := by
  refine ⟨?_, rfl⟩
  intro h
  simp only [reload_configs, sample_globals, sample_config_reloaded,
    sample_config, Option.some.injEq, ConfigObj.loaded.injEq,
    ConfigData.mk.injEq] at h
  norm_num at h

/-- C2 amended: `reload_configs` is sequential, not atomic.  The previous
parameter configuration is always discarded (the global is rebound to a
fresh parser before reading, so it ends up as the newly read data or an
empty parser), and only then is the rule list replaced — when the rule-list
source is unreadable, the new or empty parameter configuration is in effect
while the previous rules remain.  Both sources are fully replaced exactly
when both load. -/
theorem reload_configs_spec (g : Globals) :
    (∀ data rules,
      reload_configs (IniReadResult.wellFormed data)
          (JsonReadResult.wellFormed rules) g =
        ({ config := some (ConfigObj.loaded data),
           entity_actions := some rules }, true)) ∧
    (∀ data,
      reload_configs (IniReadResult.wellFormed data)
          JsonReadResult.unreadable g =
        ({ config := some (ConfigObj.loaded data),
           entity_actions := g.entity_actions }, false)) ∧
    (∀ rules,
      reload_configs IniReadResult.missing (JsonReadResult.wellFormed rules)
          g =
        ({ config := some ConfigObj.empty,
           entity_actions := some rules }, true)) ∧
    (reload_configs IniReadResult.missing JsonReadResult.unreadable g =
      ({ config := some ConfigObj.empty,
         entity_actions := g.entity_actions }, false)) ∧
    (∀ js,
      reload_configs IniReadResult.malformed js g =
        ({ config := some ConfigObj.empty,
           entity_actions := g.entity_actions }, false)) :=
  ⟨fun _ _ => rfl, fun _ => rfl, fun _ => rfl, rfl, fun _ => rfl⟩

/-! ## Theorems: Pile Detector -/

/-- Membership in the inner-loop pile: exactly the snapshot entities within
range of the anchor origin that are not static. -/
theorem mem_pile_of (ent_pos : List Entity) (pile_origin : Vec3) (r : Int)
    (b : Entity) :
    b ∈ pile_of ent_pos pile_origin r ↔
      b ∈ ent_pos ∧ pile_origin.get_distance_sqr b.origin ≤ r ∧
        is_static_entity b = false := by
  induction ent_pos with
  | nil => simp [pile_of]
  | cons e rest ih =>
    unfold pile_of
    by_cases h1 : pile_origin.get_distance_sqr e.origin > r
    · rw [if_pos h1, ih]
      constructor
      · rintro ⟨hb, hd, hs⟩
        exact ⟨List.mem_cons_of_mem e hb, hd, hs⟩
      · rintro ⟨hb, hd, hs⟩
        rcases List.mem_cons.mp hb with rfl | hb'
        · exact absurd hd (not_le.mpr h1)
        · exact ⟨hb', hd, hs⟩
    · rw [if_neg h1]
      by_cases h2 : is_static_entity e = true
      · rw [if_pos h2, ih]
        constructor
        · rintro ⟨hb, hd, hs⟩
          exact ⟨List.mem_cons_of_mem e hb, hd, hs⟩
        · rintro ⟨hb, hd, hs⟩
          rcases List.mem_cons.mp hb with rfl | hb'
          · rw [h2] at hs
            cases hs
          · exact ⟨hb', hd, hs⟩
      · rw [if_neg h2]
        rw [List.mem_cons, ih]
        constructor
        · rintro (rfl | ⟨hb, hd, hs⟩)
          · exact ⟨List.mem_cons_self b rest, not_lt.mp h1,
              Bool.eq_false_iff.mpr h2⟩
          · exact ⟨List.mem_cons_of_mem e hb, hd, hs⟩
        · rintro ⟨hb, hd, hs⟩
          rcases List.mem_cons.mp hb with rfl | hb'
          · exact Or.inl rfl
          · exact Or.inr ⟨hb', hd, hs⟩

/-- Membership among the emitted piles: exactly the oversize anchor
neighborhoods. -/
theorem mem_piles_to_clear (ent_pos anchors : List Entity) (r : Int) (m : Nat)
    (P : List Entity) :
    P ∈ piles_to_clear ent_pos anchors r m ↔
      ∃ a, a ∈ anchors ∧ P = pile_of ent_pos a.origin r ∧ m < P.length := by
  induction anchors with
  | nil => simp [piles_to_clear]
  | cons a rest ih =>
    simp only [piles_to_clear]
    by_cases h : (pile_of ent_pos a.origin r).length > m
    · rw [if_pos h, List.mem_cons, ih]
      constructor
      · rintro (rfl | ⟨a', ha', hP, hm⟩)
        · exact ⟨a, List.mem_cons_self a rest, rfl, h⟩
        · exact ⟨a', List.mem_cons_of_mem a ha', hP, hm⟩
      · rintro ⟨a', ha', hP, hm⟩
        rcases List.mem_cons.mp ha' with rfl | ha''
        · exact Or.inl hP
        · exact Or.inr ⟨a', ha'', hP, hm⟩
    · rw [if_neg h, ih]
      constructor
      · rintro ⟨a', ha', hP, hm⟩
        exact ⟨a', List.mem_cons_of_mem a ha', hP, hm⟩
      · rintro ⟨a', ha', hP, hm⟩
        rcases List.mem_cons.mp ha' with rfl | ha''
        · exact absurd (hP ▸ hm) h
        · exact ⟨a', ha'', hP, hm⟩

/-- C1: every emitted pile exceeds the size threshold, its member set is
exactly its anchor's non-static in-radius neighborhood, and no static entity
is ever a member; conversely, each anchor's neighborhood (anchors may be
static) is emitted iff its size exceeds the threshold. -/
theorem detect_piles_spec (entities : List Entity) (pile_radius : Int)
    (max_entities_per_pile : Nat) (hr : 0 ≤ pile_radius) :
    (∀ P ∈ detect_piles entities (pile_radius ^ 2) max_entities_per_pile,
      max_entities_per_pile < P.length ∧
      (∃ a, a ∈ entities ∧ ∀ b, b ∈ P ↔
        (b ∈ entities ∧ is_static_entity b = false ∧
          a.origin.get_distance_sqr b.origin ≤ pile_radius ^ 2)) ∧
      (∀ b ∈ P, is_static_entity b = false)) ∧
    (∀ a ∈ entities,
      (pile_of entities a.origin (pile_radius ^ 2) ∈
          detect_piles entities (pile_radius ^ 2) max_entities_per_pile ↔
        max_entities_per_pile <
          (pile_of entities a.origin (pile_radius ^ 2)).length)) := by
  constructor
  · intro P hP
    unfold detect_piles at hP
    rw [mem_piles_to_clear] at hP
    obtain ⟨a, ha, rfl, hm⟩ := hP
    refine ⟨hm, ⟨a, ha, fun b => ?_⟩, fun b hb => ?_⟩
    · rw [mem_pile_of]
      constructor
      · rintro ⟨x1, x2, x3⟩
        exact ⟨x1, x3, x2⟩
      · rintro ⟨x1, x2, x3⟩
        exact ⟨x1, x3, x2⟩
    · exact ((mem_pile_of _ _ _ _).mp hb).2.2
  · intro a ha
    unfold detect_piles
    rw [mem_piles_to_clear]
    constructor
    · rintro ⟨-, -, -, hm⟩
      exact hm
    · intro hm
      exact ⟨a, ha, rfl, hm⟩

/-- Witness for C1: two live crates one unit apart, radius 2, threshold 1 —
each anchor's neighborhood holds both crates and is emitted. -/
theorem detect_piles_spec_witness :
    (0 : Int) ≤ 2 ∧
    ((∀ P ∈ detect_piles [crate_a, crate_b] (2 ^ 2) 1,
      1 < P.length ∧
      (∃ a, a ∈ [crate_a, crate_b] ∧ ∀ b, b ∈ P ↔
        (b ∈ [crate_a, crate_b] ∧ is_static_entity b = false ∧
          a.origin.get_distance_sqr b.origin ≤ 2 ^ 2)) ∧
      (∀ b ∈ P, is_static_entity b = false)) ∧
    (∀ a ∈ [crate_a, crate_b],
      (pile_of [crate_a, crate_b] a.origin (2 ^ 2) ∈
          detect_piles [crate_a, crate_b] (2 ^ 2) 1 ↔
        1 < (pile_of [crate_a, crate_b] a.origin (2 ^ 2)).length))) :=
  ⟨by decide, detect_piles_spec [crate_a, crate_b] 2 1 (by decide)⟩

/-! ## Theorems: Mitigation Pass -/

/-- Accumulator invariant of the Step-3 inner loop: the call appends to
`handled_indexes` exactly the indexes of the newly invoked entities in
order, adds to the count exactly the newly invoked entities whose evaluation
reported handled, appends the invoked entities to the trace, and the new
invocations are pile members with pairwise distinct indexes, none of which
was recorded before. -/
theorem clear_pile_acc (entity_actions : List Rule) (pile : List Entity) :
    ∀ (handled_indexes : List Nat) (handled_entities_count : Nat)
      (invoked : List Entity),
      ∃ new : List Entity,
        clear_pile entity_actions pile handled_indexes
            handled_entities_count invoked =
          (handled_indexes ++ new.map Entity.index,
            handled_entities_count +
              (new.filter
                (fun e => (handle_entity entity_actions e).toBool)).length,
            invoked ++ new) ∧
        (new.map Entity.index).Nodup ∧
        (∀ i ∈ new.map Entity.index, i ∉ handled_indexes) ∧
        (∀ e ∈ new, e ∈ pile) := by
  induction pile with
  | nil =>
    intro idx cnt inv
    exact ⟨[], by simp [clear_pile], by simp, by simp, by simp⟩
  | cons e rest ih =>
    intro idx cnt inv
    by_cases hmem : e.index ∈ idx
    · obtain ⟨new, heq, hnd, hdj, hsb⟩ := ih idx cnt inv
      refine ⟨new, ?_, hnd, hdj,
        fun x hx => List.mem_cons_of_mem e (hsb x hx)⟩
      unfold clear_pile
      rw [if_pos hmem]
      exact heq
    · obtain ⟨new, heq, hnd, hdj, hsb⟩ :=
        ih (idx ++ [e.index])
          (if (handle_entity entity_actions e).toBool then cnt + 1 else cnt)
          (inv ++ [e])
      have hmem_new : e.index ∉ new.map Entity.index := fun hx =>
        hdj e.index hx (by simp)
      refine ⟨e :: new, ?_, ?_, ?_, ?_⟩
      · unfold clear_pile
        rw [if_neg hmem, heq]
        simp only [Prod.mk.injEq]
        refine ⟨by simp, ?_, by simp⟩
        cases hb : (handle_entity entity_actions e).toBool <;>
          simp [List.filter_cons, hb] <;> omega
      · exact List.nodup_cons.mpr ⟨hmem_new, hnd⟩
      · intro i hi
        rw [List.map_cons] at hi
        rcases List.mem_cons.mp hi with rfl | hi'
        · exact hmem
        · exact fun hin => hdj i hi' (List.mem_append_left _ hin)
      · intro x hx
        rcases List.mem_cons.mp hx with rfl | hx'
        · exact List.mem_cons_self x rest
        · exact List.mem_cons_of_mem e (hsb x hx')

/-- Accumulator invariant of the Step-3 outer loop: same shape as
`clear_pile_acc`, with every newly invoked entity a member of some pile. -/
theorem clear_piles_acc (entity_actions : List Rule)
    (piles : List (List Entity)) :
    ∀ (handled_indexes : List Nat) (handled_entities_count : Nat)
      (invoked : List Entity),
      ∃ new : List Entity,
        clear_piles entity_actions piles handled_indexes
            handled_entities_count invoked =
          (handled_indexes ++ new.map Entity.index,
            handled_entities_count +
              (new.filter
                (fun e => (handle_entity entity_actions e).toBool)).length,
            invoked ++ new) ∧
        (new.map Entity.index).Nodup ∧
        (∀ i ∈ new.map Entity.index, i ∉ handled_indexes) ∧
        (∀ e ∈ new, ∃ P, P ∈ piles ∧ e ∈ P) := by
  induction piles with
  | nil =>
    intro idx cnt inv
    exact ⟨[], by simp [clear_piles], by simp, by simp, by simp⟩
  | cons pile rest ih =>
    intro idx cnt inv
    obtain ⟨n1, h1, nd1, dj1, sb1⟩ :=
      clear_pile_acc entity_actions pile idx cnt inv
    obtain ⟨n2, h2, nd2, dj2, sb2⟩ :=
      ih (idx ++ n1.map Entity.index)
        (cnt +
          (n1.filter
            (fun e => (handle_entity entity_actions e).toBool)).length)
        (inv ++ n1)
    refine ⟨n1 ++ n2, ?_, ?_, ?_, ?_⟩
    · simp only [clear_piles, h1]
      rw [h2]
      simp [List.append_assoc, Nat.add_assoc]
    · rw [List.map_append]
      exact List.nodup_append.mpr ⟨nd1, nd2, fun i hi1 hi2 =>
        dj2 i hi2 (List.mem_append_right _ hi1)⟩
    · intro i hi
      rw [List.map_append] at hi
      rcases List.mem_append.mp hi with hi1 | hi2
      · exact dj1 i hi1
      · exact fun hin => dj2 i hi2 (List.mem_append_left _ hin)
    · intro x hx
      rcases List.mem_append.mp hx with hx1 | hx2
      · exact ⟨pile, List.mem_cons_self pile rest, sb1 x hx1⟩
      · obtain ⟨P, hP, hxP⟩ := sb2 x hx2
        exact ⟨P, List.mem_cons_of_mem pile hP, hxP⟩

/-- C5: one pass bumps `total_checks_issued` by exactly one and
`total_handled_entities_count` by exactly the number of invoked entities
whose evaluation reported handled; the invocation trace never repeats an
index, so each distinct id — including those that reported not handled — is
passed to the Rule Engine at most once per pass. -/
theorem perform_check_spec (entity_actions : List Rule)
    (entities : List Entity) (max_entities_per_pile : Nat)
    (pile_radius : Int) (stats : Stats) :
    ∃ invoked : List Entity,
      perform_check entity_actions entities max_entities_per_pile
          pile_radius stats =
        ({ total_checks_issued := stats.total_checks_issued + 1,
           total_handled_entities_count :=
             stats.total_handled_entities_count +
               (invoked.filter
                 (fun e =>
                   (handle_entity entity_actions e).toBool)).length },
          invoked) ∧
      (invoked.map Entity.index).Nodup := by
  obtain ⟨new, heq, hnd, hdj, hsb⟩ :=
    clear_piles_acc entity_actions
      (detect_piles entities (pile_radius ^ 2) max_entities_per_pile) [] 0 []
  refine ⟨new, ?_, hnd⟩
  simp only [perform_check]
  rw [heq]
  simp

/-- Entities that are not static have a physics object with motion enabled. -/
theorem not_static_has_physics (e : Entity)
    (h : is_static_entity e = false) :
    ∃ p, e.physics_object = some p ∧ p.motion_enabled = true := by
  obtain ⟨i, c, o, po⟩ := e
  cases po with
  | none => cases h
  | some p =>
    obtain ⟨ps, pc, pa, pm⟩ := p
    cases pm
    · simp [is_static_entity] at h
    · exact ⟨⟨ps, pc, pa, true⟩, rfl, rfl⟩

/-- C10: every entity the Mitigation Pass passes to the Rule Engine is a
pile member, hence was non-static at snapshot time, so its physics object
exists and has motion enabled — the Freeze branch of `handle_entity` never
dereferences a missing physics object for entities reached this way. -/
theorem perform_check_freeze_safe (entity_actions : List Rule)
    (entities : List Entity) (max_entities_per_pile : Nat)
    (pile_radius : Int) (stats : Stats) :
    ∀ e ∈ (perform_check entity_actions entities max_entities_per_pile
        pile_radius stats).2,
      is_static_entity e = false ∧
      ∃ p, e.physics_object = some p ∧ p.motion_enabled = true := by
  intro e he
  obtain ⟨new, heq, hnd, hdj, hsb⟩ :=
    clear_piles_acc entity_actions
      (detect_piles entities (pile_radius ^ 2) max_entities_per_pile) [] 0 []
  have hnew : (perform_check entity_actions entities max_entities_per_pile
      pile_radius stats).2 = new := by
    simp only [perform_check]
    rw [heq]
    simp
  rw [hnew] at he
  obtain ⟨P, hP, heP⟩ := hsb e he
  unfold detect_piles at hP
  rw [mem_piles_to_clear] at hP
  obtain ⟨a, ha, rfl, hm⟩ := hP
  have hstatic := ((mem_pile_of _ _ _ _).mp heP).2.2
  exact ⟨hstatic, not_static_has_physics e hstatic⟩

/-- Witness for C10: on the two-crate snapshot under the wildcard remove
rule, `crate_a` is invoked by the pass, and it is non-static with a
motion-enabled physics object. -/
theorem perform_check_freeze_safe_witness :
    crate_a ∈ (perform_check [remove_props_rule] [crate_a, crate_b] 1 2
        ⟨0, 0⟩).2 ∧
    (is_static_entity crate_a = false ∧
      ∃ p, crate_a.physics_object = some p ∧ p.motion_enabled = true) :=
  ⟨by decide,
    perform_check_freeze_safe [remove_props_rule] [crate_a, crate_b] 1 2
      ⟨0, 0⟩ crate_a (by decide)⟩
